import Mathlib

/-!
Shallow embedding of the repository secret-retrieval helper (the Vault-backed
token resolver): cache lookup, remote fetch with AppRole sub-login, envelope
normalization, environment fallback, and cache clearing.

JavaScript semantics is modelled explicitly: JSON values with JS truthiness,
`process.env` as an optional-valued map from names to strings, the network as a total
function from requests to HTTP responses, and the in-memory `Map` cache as an
association list with insertion-order update semantics.  Each resolver call is
given the clock readings it performs (`now` at the cache check, `nowSet` at the
cache store) and returns the value, the updated cache and the list of network
requests it issued.
-/

/-- JSON values as they appear in Vault HTTP response bodies. -/
inductive JSON where
  | null : JSON
  | bool : Bool → JSON
  | num : Int → JSON
  | str : String → JSON
  | obj : List (String × JSON) → JSON

/-- JS property access `v[k]`: field lookup on an object, `undefined` (here
`none`) on anything else or when the field is missing. -/
def jget : Option JSON → String → Option JSON
  | some (JSON.obj fields), k => (fields.find? (fun p => p.1 == k)).map (fun p => p.2)
  | _, _ => none

/-- JS truthiness of a possibly-undefined JSON value. -/
def truthy : Option JSON → Bool
  | none => false
  | some JSON.null => false
  | some (JSON.bool b) => b
  | some (JSON.num n) => n != 0
  | some (JSON.str s) => s != ""
  | some (JSON.obj _) => true

/-- JS `String(v)` coercion, restricted to the JSON values of the model. -/
def jsToString : JSON → String
  | JSON.null => "null"
  | JSON.bool true => "true"
  | JSON.bool false => "false"
  | JSON.num n => toString n
  | JSON.str s => s
  | JSON.obj _ => "[object Object]"

/-- JS truthiness of a possibly-undefined environment string. -/
def struthy : Option String → Bool
  | none => false
  | some s => s != ""

/-- The part of a `fetch` response the helper inspects: `ok`, `status`, the
parsed JSON body (`res.json().catch(() => ({}))`) and the raw text used in
error messages. -/
structure HttpResponse where
  ok : Bool
  status : Nat
  body : JSON
  text : String

/-- An outbound network request issued by the helper: the AppRole login POST
(url, role id, secret id) or the authenticated secret read GET (url, token). -/
inductive Request where
  | login : String → String → String → Request
  | read : String → String → Request
deriving DecidableEq

/-- `process.env` as an optional-valued map. -/
abbrev EnvMap := String → Option String

/-- The network: a total function answering each request with a response. -/
abbrev Network := Request → HttpResponse

/-- `addr.replace(/\/$/, "")`: drop a single trailing slash. -/
def stripTrailingSlash (s : String) : String :=
  if s.data.getLast? == some '/' then String.mk s.data.dropLast else s

/-- `path.replace(/^\/+/, "")`: drop all leading slashes. -/
def stripLeadingSlashes (s : String) : String :=
  String.mk (s.data.dropWhile (fun c => c == '/'))

/-- URL of the AppRole login endpoint. -/
def loginUrl (addr : String) : String :=
  stripTrailingSlash addr ++ "/v1/auth/approle/login"

/-- URL of the secret read endpoint for a given path. -/
def readUrl (addr : String) (path : String) : String :=
  stripTrailingSlash addr ++ "/v1/" ++ stripLeadingSlashes path

/-- Lines 63-67 of the helper: flexible handling for KV v2 vs v1.
`if (data && data.data && data.data.data) return data.data.data;`
`if (data && data.data) return data.data;  return data;` -/
def normalizeEnvelope (data : JSON) : JSON :=
  if truthy (some data) && truthy (jget (some data) "data")
      && truthy (jget (jget (some data) "data") "data") then
    (jget (jget (some data) "data") "data").getD JSON.null
  else if truthy (some data) && truthy (jget (some data) "data") then
    (jget (some data) "data").getD JSON.null
  else data

/-- The authenticated secret read (lines 51-67): issue the GET, throw on a
non-success status, otherwise normalize the envelope. -/
def readSecret (net : Network) (addr path : String) (token : Option JSON)
    (log : List Request) : Except String JSON × List Request :=
  let req := Request.read (readUrl addr path) (jsToString (token.getD JSON.null))
  let res := net req
  if !res.ok then
    (Except.error ("Vault secret fetch failed: " ++ toString res.status ++ " " ++ res.text),
      log ++ [req])
  else
    (Except.ok (normalizeEnvelope res.body), log ++ [req])

/-- `fetchFromVault(path)` (lines 29-68).  Returns the thrown error or the
normalized collection, together with the network requests issued.  Mirrors the
source: missing address throws; a static token is preferred; otherwise a
truthy role-id and secret-id pair triggers the AppRole login sub-call, whose
non-success status or missing `client_token` throws; with no credential at all
it throws; finally the authenticated read runs and a non-success status
throws. -/
def fetchFromVault (env : EnvMap) (net : Network) (path : String) :
    Except String JSON × List Request :=
  if !struthy (env "VAULT_ADDR") then
    (Except.error "VAULT_ADDR not configured", [])
  else
    let addr := (env "VAULT_ADDR").getD ""
    let token0 : Option JSON := (env "VAULT_TOKEN").map JSON.str
    if !truthy token0 && struthy (env "VAULT_ROLE_ID") && struthy (env "VAULT_SECRET_ID") then
      let req := Request.login (loginUrl addr)
        ((env "VAULT_ROLE_ID").getD "") ((env "VAULT_SECRET_ID").getD "")
      let resp := net req
      if !resp.ok then
        (Except.error ("Vault AppRole login failed: " ++ toString resp.status), [req])
      else
        let ct := jget (jget (some resp.body) "auth") "client_token"
        if !truthy ct then
          (Except.error "Vault AppRole login did not return client_token", [req])
        else
          readSecret net addr path ct [req]
    else if !truthy token0 then
      (Except.error "No Vault auth available (VAULT_TOKEN or AppRole required)", [])
    else
      readSecret net addr path token0 []

/-- A cache entry: `{ value: string | null; expiresAt: number }`. -/
structure Cached where
  value : Option String
  expiresAt : Nat
deriving DecidableEq

/-- The module-level `Map` cache, as an association list. -/
abbrev Cache := List (String × Cached)

/-- `cacheKey(path, keyName)` (lines 25-27). -/
def cacheKey (path : String) (keyName : String) : String :=
  path ++ "#" ++ keyName

/-- JS `Map.get`. -/
def cacheGet (m : Cache) (k : String) : Option Cached :=
  (m.find? (fun p => p.1 == k)).map (fun p => p.2)

/-- JS `Map.set`: update in place when the key exists, append otherwise. -/
def cacheSet (m : Cache) (k : String) (v : Cached) : Cache :=
  if m.any (fun p => p.1 == k) then
    m.map (fun p => if p.1 == k then (k, v) else p)
  else m ++ [(k, v)]

/-- `clearVaultCache()` (lines 109-111): the cache after clearing. -/
def clearVaultCache : Cache := []

/-- Process-wide configuration: `process.env` and the `CACHE_TTL_MS`
module constant. -/
structure Config where
  env : EnvMap
  cacheTtlMs : Nat

/-- Line 87: `(data && typeof data[keyName] !== "undefined") ?
String(data[keyName]) : null`. -/
def extractValue (data : JSON) (keyName : String) : Option String :=
  if truthy (some data) && (jget (some data) keyName).isSome then
    (jget (some data) keyName).map jsToString
  else none

/-- The outcome of one `getSecret` call: the returned value (`null` is
`none`), the cache afterwards, and the network requests issued. -/
structure GetResult where
  value : Option String
  cache : Cache
  requests : List Request
deriving DecidableEq

/-- The cache-miss continuation of `getSecret` (lines 85-103): fetch from
Vault; on success extract the key, cache the extracted value at the full TTL
and fall back to a truthy environment value only when the key was absent; on
any thrown error fall back to the environment value and cache it with expiry
`nowSet + min cacheTtlMs 30000`. -/
def getSecretMiss (cfg : Config) (net : Network) (cache : Cache)
    (nowSet : Nat) (secretPath keyName k : String) : GetResult :=
  match fetchFromVault cfg.env net secretPath with
  | (Except.ok data, log) =>
    match extractValue data keyName with
    | none =>
      if struthy (cfg.env keyName) then
        { value := cfg.env keyName,
          cache := cacheSet cache k { value := none, expiresAt := nowSet + cfg.cacheTtlMs },
          requests := log }
      else
        { value := none,
          cache := cacheSet cache k { value := none, expiresAt := nowSet + cfg.cacheTtlMs },
          requests := log }
    | some v =>
      { value := some v,
        cache := cacheSet cache k { value := some v, expiresAt := nowSet + cfg.cacheTtlMs },
        requests := log }
  | (Except.error _, log) =>
    { value := cfg.env keyName,
      cache := cacheSet cache k
        { value := cfg.env keyName, expiresAt := nowSet + min cfg.cacheTtlMs 30000 },
      requests := log }

/-- `getSecret(secretPath, keyName)` (lines 79-104): serve a live cache entry
with no network requests, otherwise run the miss path.  `now` is the
`Date.now()` reading of the cache check, `nowSet` the one used when storing. -/
def getSecret (cfg : Config) (net : Network) (cache : Cache)
    (now nowSet : Nat) (secretPath keyName : String) : GetResult :=
  match cacheGet cache (cacheKey secretPath keyName) with
  | some c =>
    if now < c.expiresAt then { value := c.value, cache := cache, requests := [] }
    else getSecretMiss cfg net cache nowSet secretPath keyName (cacheKey secretPath keyName)
  | none => getSecretMiss cfg net cache nowSet secretPath keyName (cacheKey secretPath keyName)

/-- No live entry for key `k` at time `now`: either absent or expired. -/
def isMiss (cache : Cache) (k : String) (now : Nat) : Bool :=
  match cacheGet cache k with
  | none => true
  | some c => c.expiresAt ≤ now

/-! ### Helper lemmas -/

theorem truthy_map_str (o : Option String) : truthy (o.map JSON.str) = struthy o := by
  cases o <;> rfl

theorem cacheGet_cacheSet_self (m : Cache) (k : String) (v : Cached) :
    cacheGet (cacheSet m k v) k = some v := by
  unfold cacheSet cacheGet
  by_cases ha : m.any (fun p => p.1 == k) = true
  · rw [if_pos ha, List.find?_map]
    have hcomp : ((fun p : String × Cached => p.1 == k) ∘
        (fun p => if p.1 == k then (k, v) else p)) = fun p : String × Cached => p.1 == k := by
      funext q
      cases hq : (q.1 == k) with
      | false =>
        have hne : ¬ q.1 = k := by simpa using hq
        simp [hne, hq]
      | true =>
        have he : q.1 = k := by simpa using hq
        simp [he]
    rw [hcomp]
    have hex : ∃ x ∈ m, ((fun p : String × Cached => p.1 == k) x) = true :=
      List.any_eq_true.mp ha
    have hsome : (m.find? (fun p => p.1 == k)).isSome := List.find?_isSome.mpr hex
    obtain ⟨a, hfa⟩ := Option.isSome_iff_exists.mp hsome
    have hpa := List.find?_some hfa
    simp only at hpa
    have he : a.1 = k := by simpa using hpa
    rw [hfa]
    simp [he]
  · rw [if_neg ha, List.find?_append]
    have hnone : m.find? (fun p => p.1 == k) = none := by
      rw [List.find?_eq_none]
      intro x hx hpx
      exact ha (List.any_eq_true.mpr ⟨x, hx, hpx⟩)
    rw [hnone]
    simp

theorem getSecret_hit (cfg : Config) (net : Network) (cache : Cache)
    (now nowSet : Nat) (p K : String) (c : Cached)
    (hc : cacheGet cache (cacheKey p K) = some c) (h : now < c.expiresAt) :
    getSecret cfg net cache now nowSet p K =
      { value := c.value, cache := cache, requests := [] } := by
  unfold getSecret
  rw [hc]
  simp [h]

theorem getSecret_miss (cfg : Config) (net : Network) (cache : Cache)
    (now nowSet : Nat) (p K : String)
    (h : isMiss cache (cacheKey p K) now = true) :
    getSecret cfg net cache now nowSet p K =
      getSecretMiss cfg net cache nowSet p K (cacheKey p K) := by
  unfold isMiss at h
  unfold getSecret
  cases hc : cacheGet cache (cacheKey p K) with
  | none => rfl
  | some c =>
    rw [hc] at h
    simp only [decide_eq_true_eq] at h
    simp [Nat.not_lt.mpr h]

theorem getSecretMiss_requests (cfg : Config) (net : Network) (cache : Cache)
    (nowSet : Nat) (p K k : String) :
    (getSecretMiss cfg net cache nowSet p K k).requests = (fetchFromVault cfg.env net p).2 := by
  unfold getSecretMiss
  cases hf : fetchFromVault cfg.env net p with
  | mk res log =>
    cases res with
    | ok data =>
      cases hv : extractValue data K with
      | none => by_cases he : struthy (cfg.env K) = true <;> simp [hv, he]
      | some v => simp [hv]
    | error e => simp

/-! ### Concrete scenarios -/

/-- Environment: store address set, no static token, AppRole pair "r"/"s",
and an environment value for the key "K". -/
def envAppRole : EnvMap := fun k =>
  if k == "VAULT_ADDR" then some "http://v"
  else if k == "VAULT_ROLE_ID" then some "r"
  else if k == "VAULT_SECRET_ID" then some "s"
  else if k == "K" then some "envV"
  else none

/-- Network whose AppRole login endpoint answers HTTP 400. -/
def netLogin400 : Network := fun r =>
  match r with
  | Request.login _ _ _ => { ok := false, status := 400, body := JSON.obj [], text := "" }
  | Request.read _ _ => { ok := true, status := 200, body := JSON.obj [], text := "" }

/-- Configuration for the AppRole scenarios, full TTL 300000 ms. -/
def cfgAppRole : Config := { env := envAppRole, cacheTtlMs := 300000 }

/-! ### C1 -/

/-- C1 counterexample: store address set, no static token, role-id "r" and
secret-id "s" configured, login endpoint answering HTTP 400.  The inner fetch
rejects with the AppRole login error, yet `getSecret` returns the environment
fallback value and caches it with the short TTL: the rejection does not
propagate to the caller, contradicting the claim that it is not caught
internally and converted into the environment fallback. -/
theorem C1_counterexample :
    (fetchFromVault envAppRole netLogin400 "secret/p").1 =
      Except.error "Vault AppRole login failed: 400" ∧
    getSecret cfgAppRole netLogin400 [] 0 0 "secret/p" "K" =
      { value := some "envV",
        cache := [("secret/p#K", { value := some "envV", expiresAt := 30000 })],
        requests := [Request.login "http://v/v1/auth/approle/login" "r" "s"] } :=
  ⟨rfl, by decide⟩

/-- C1 (amended): with a store address configured, no truthy static token, a
truthy role-id/secret-id pair, and the login endpoint answering a non-success
status, the inner `fetchFromVault` rejects with the AppRole login error, but
`getSecret` catches that rejection internally and converts it into the
environment fallback: the resolver call returns `env keyName`, caches that
value with the short fallback TTL, and does not propagate the error. -/
theorem C1_login_failure_caught (cfg : Config) (net : Network) (cache : Cache)
    (now nowSet : Nat) (p K : String)
    (haddr : struthy (cfg.env "VAULT_ADDR") = true)
    (htok : struthy (cfg.env "VAULT_TOKEN") = false)
    (hrole : struthy (cfg.env "VAULT_ROLE_ID") = true)
    (hsec : struthy (cfg.env "VAULT_SECRET_ID") = true)
    (hfail : (net (Request.login (loginUrl ((cfg.env "VAULT_ADDR").getD ""))
        ((cfg.env "VAULT_ROLE_ID").getD "") ((cfg.env "VAULT_SECRET_ID").getD ""))).ok = false)
    (hmiss : isMiss cache (cacheKey p K) now = true) :
    (fetchFromVault cfg.env net p).1 =
      Except.error ("Vault AppRole login failed: " ++
        toString (net (Request.login (loginUrl ((cfg.env "VAULT_ADDR").getD ""))
          ((cfg.env "VAULT_ROLE_ID").getD "") ((cfg.env "VAULT_SECRET_ID").getD ""))).status) ∧
    getSecret cfg net cache now nowSet p K =
      { value := cfg.env K,
        cache := cacheSet cache (cacheKey p K)
          { value := cfg.env K, expiresAt := nowSet + min cfg.cacheTtlMs 30000 },
        requests := [Request.login (loginUrl ((cfg.env "VAULT_ADDR").getD ""))
          ((cfg.env "VAULT_ROLE_ID").getD "") ((cfg.env "VAULT_SECRET_ID").getD "")] } := by
  have hfetch : fetchFromVault cfg.env net p =
      (Except.error ("Vault AppRole login failed: " ++
        toString (net (Request.login (loginUrl ((cfg.env "VAULT_ADDR").getD ""))
          ((cfg.env "VAULT_ROLE_ID").getD "") ((cfg.env "VAULT_SECRET_ID").getD ""))).status),
        [Request.login (loginUrl ((cfg.env "VAULT_ADDR").getD ""))
          ((cfg.env "VAULT_ROLE_ID").getD "") ((cfg.env "VAULT_SECRET_ID").getD "")]) := by
    unfold fetchFromVault
    rw [haddr]
    simp only [truthy_map_str, htok, hrole, hsec, Bool.not_false, Bool.true_and, Bool.and_self,
      Bool.not_true, if_true, if_false, Bool.false_and]
    rw [hfail]
    simp
  refine ⟨by rw [hfetch], ?_⟩
  rw [getSecret_miss cfg net cache now nowSet p K hmiss]
  unfold getSecretMiss
  rw [hfetch]

/-- C1 witness: the amended theorem applied at the concrete HTTP-400 login
scenario. -/
theorem C1_witness :
    (fetchFromVault cfgAppRole.env netLogin400 "secret/p").1 =
      Except.error ("Vault AppRole login failed: " ++
        toString (netLogin400 (Request.login (loginUrl ((cfgAppRole.env "VAULT_ADDR").getD ""))
          ((cfgAppRole.env "VAULT_ROLE_ID").getD "")
          ((cfgAppRole.env "VAULT_SECRET_ID").getD ""))).status) ∧
    getSecret cfgAppRole netLogin400 [] 7 7 "secret/p" "K" =
      { value := cfgAppRole.env "K",
        cache := cacheSet [] (cacheKey "secret/p" "K")
          { value := cfgAppRole.env "K", expiresAt := 7 + min cfgAppRole.cacheTtlMs 30000 },
        requests := [Request.login (loginUrl ((cfgAppRole.env "VAULT_ADDR").getD ""))
          ((cfgAppRole.env "VAULT_ROLE_ID").getD "")
          ((cfgAppRole.env "VAULT_SECRET_ID").getD "")] } :=
  C1_login_failure_caught cfgAppRole netLogin400 [] 7 7 "secret/p" "K" rfl rfl rfl rfl rfl rfl

/-! ### C2 and C3 -/

/-- Environment: store address and static token set, plus an environment value
for the key "K". -/
def envStaticToken : EnvMap := fun k =>
  if k == "VAULT_ADDR" then some "http://v"
  else if k == "VAULT_TOKEN" then some "t"
  else if k == "K" then some "envV"
  else none

/-- Network whose secret read succeeds but returns a collection in which the
key "K" is absent. -/
def netKeyAbsent : Network := fun r =>
  match r with
  | Request.login _ _ _ => { ok := false, status := 500, body := JSON.obj [], text := "" }
  | Request.read _ _ =>
    { ok := true, status := 200,
      body := JSON.obj [("data", JSON.obj [("other", JSON.str "x")])], text := "" }

/-- Configuration for the key-absent scenarios, full TTL 300000 ms. -/
def cfgStaticToken : Config := { env := envStaticToken, cacheTtlMs := 300000 }

/-- C2 counterexample: the remote fetch succeeds, "K" is absent in the
collection, and the environment has K=\x22envV\x22.  The first `resolve` call
returns the environment value but caches `null`, and a second call in the same
TTL window returns `null`: the returned value is not the cached value and the
two calls disagree. -/
theorem C2_counterexample :
    (getSecret cfgStaticToken netKeyAbsent [] 0 0 "p" "K").value = some "envV" ∧
    cacheGet (getSecret cfgStaticToken netKeyAbsent [] 0 0 "p" "K").cache (cacheKey "p" "K") =
      some { value := none, expiresAt := 300000 } ∧
    (getSecret cfgStaticToken netKeyAbsent
      (getSecret cfgStaticToken netKeyAbsent [] 0 0 "p" "K").cache 1 1 "p" "K").value = none :=
  ⟨by decide, by decide, by decide⟩

/-- Branch characterization of the miss path when the fetch threw. -/
theorem getSecretMiss_error (cfg : Config) (net : Network) (cache : Cache)
    (nowSet : Nat) (p K k : String) (e : String) (log : List Request)
    (hf : fetchFromVault cfg.env net p = (Except.error e, log)) :
    getSecretMiss cfg net cache nowSet p K k =
      { value := cfg.env K,
        cache := cacheSet cache k
          { value := cfg.env K, expiresAt := nowSet + min cfg.cacheTtlMs 30000 },
        requests := log } := by
  unfold getSecretMiss
  simp only [hf]

/-- Branch characterization of the miss path when the fetch succeeded and the
key is present. -/
theorem getSecretMiss_ok_some (cfg : Config) (net : Network) (cache : Cache)
    (nowSet : Nat) (p K k : String) (data : JSON) (log : List Request) (v : String)
    (hf : fetchFromVault cfg.env net p = (Except.ok data, log))
    (hv : extractValue data K = some v) :
    getSecretMiss cfg net cache nowSet p K k =
      { value := some v,
        cache := cacheSet cache k { value := some v, expiresAt := nowSet + cfg.cacheTtlMs },
        requests := log } := by
  unfold getSecretMiss
  simp only [hf, hv]

/-- Branch characterization of the miss path when the fetch succeeded but the
key is absent: `null` is cached at the full TTL; a truthy environment value is
returned instead when present. -/
theorem getSecretMiss_ok_none (cfg : Config) (net : Network) (cache : Cache)
    (nowSet : Nat) (p K k : String) (data : JSON) (log : List Request)
    (hf : fetchFromVault cfg.env net p = (Except.ok data, log))
    (hv : extractValue data K = none) :
    getSecretMiss cfg net cache nowSet p K k =
      { value := if struthy (cfg.env K) then cfg.env K else none,
        cache := cacheSet cache k { value := none, expiresAt := nowSet + cfg.cacheTtlMs },
        requests := log } := by
  unfold getSecretMiss
  simp only [hf, hv]
  by_cases he : struthy (cfg.env K) = true
  · simp [he]
  · simp only [Bool.not_eq_true] at he
    simp [he]

/-- C2 (amended): on a cache miss, unless the remote fetch succeeded while the
key was absent in the collection and the environment had the key set to a
truthy value, the value `resolve` returns is the value stored in the cache
under `path # keyName`, and any second call while that entry is live returns
the identical value with zero network calls and an unchanged cache. -/
theorem C2_return_equals_cached (cfg : Config) (net : Network) (cache : Cache)
    (now nowSet t2 : Nat) (p K : String)
    (hmiss : isMiss cache (cacheKey p K) now = true)
    (hexc : ∀ data log, fetchFromVault cfg.env net p = (Except.ok data, log) →
      extractValue data K ≠ none ∨ struthy (cfg.env K) = false) :
    ∃ c, cacheGet (getSecret cfg net cache now nowSet p K).cache (cacheKey p K) = some c ∧
      c.value = (getSecret cfg net cache now nowSet p K).value ∧
      (t2 < c.expiresAt →
        getSecret cfg net (getSecret cfg net cache now nowSet p K).cache t2 t2 p K =
          { value := (getSecret cfg net cache now nowSet p K).value,
            cache := (getSecret cfg net cache now nowSet p K).cache,
            requests := [] }) := by
  rw [getSecret_miss cfg net cache now nowSet p K hmiss]
  cases hf : fetchFromVault cfg.env net p with
  | mk res log =>
    cases res with
    | ok data =>
      cases hv : extractValue data K with
      | none =>
        have he : struthy (cfg.env K) = false := by
          rcases hexc data log hf with h | h
          · exact absurd hv h
          · exact h
        rw [getSecretMiss_ok_none cfg net cache nowSet p K (cacheKey p K) data log hf hv]
        rw [he]
        simp only [Bool.false_eq_true, if_false]
        refine ⟨{ value := none, expiresAt := nowSet + cfg.cacheTtlMs },
          cacheGet_cacheSet_self cache (cacheKey p K) _, rfl, ?_⟩
        intro ht
        exact getSecret_hit cfg net _ t2 t2 p K _
          (cacheGet_cacheSet_self cache (cacheKey p K) _) ht
      | some v =>
        rw [getSecretMiss_ok_some cfg net cache nowSet p K (cacheKey p K) data log v hf hv]
        refine ⟨{ value := some v, expiresAt := nowSet + cfg.cacheTtlMs },
          cacheGet_cacheSet_self cache (cacheKey p K) _, rfl, ?_⟩
        intro ht
        exact getSecret_hit cfg net _ t2 t2 p K _
          (cacheGet_cacheSet_self cache (cacheKey p K) _) ht
    | error e =>
      rw [getSecretMiss_error cfg net cache nowSet p K (cacheKey p K) e log hf]
      refine ⟨{ value := cfg.env K, expiresAt := nowSet + min cfg.cacheTtlMs 30000 },
        cacheGet_cacheSet_self cache (cacheKey p K) _, rfl, ?_⟩
      intro ht
      exact getSecret_hit cfg net _ t2 t2 p K _
        (cacheGet_cacheSet_self cache (cacheKey p K) _) ht

/-- Network answering the secret read with a singly-nested (KV v1) envelope
holding KEY="V". -/
def netKv1 : Network := fun r =>
  match r with
  | Request.login _ _ _ => { ok := false, status := 500, body := JSON.obj [], text := "" }
  | Request.read _ _ =>
    { ok := true, status := 200,
      body := JSON.obj [("data", JSON.obj [("KEY", JSON.str "V")])], text := "" }

/-- C2 witness: the amended theorem applied at a concrete configuration where
the remote collection contains the key. -/
theorem C2_witness :
    getSecret cfgStaticToken netKv1
        (getSecret cfgStaticToken netKv1 [] 0 0 "p" "KEY").cache 100 100 "p" "KEY" =
      { value := (getSecret cfgStaticToken netKv1 [] 0 0 "p" "KEY").value,
        cache := (getSecret cfgStaticToken netKv1 [] 0 0 "p" "KEY").cache,
        requests := [] } := by
  obtain ⟨c, h1, h2, h3⟩ :=
    C2_return_equals_cached cfgStaticToken netKv1 [] 0 0 100 "p" "KEY" (by decide)
      (by
        intro data log h
        have h4 : ((Except.ok (JSON.obj [("KEY", JSON.str "V")]) : Except String JSON),
            ([Request.read "http://v/v1/p" "t"] : List Request)) = (Except.ok data, log) := h
        injection h4 with h5 h6
        injection h5 with h7
        subst h7
        left
        decide)
  have hval : cacheGet (getSecret cfgStaticToken netKv1 [] 0 0 "p" "KEY").cache
      (cacheKey "p" "KEY") = some { value := some "V", expiresAt := 300000 } := by decide
  have hc : ({ value := some "V", expiresAt := 300000 } : Cached) = c :=
    Option.some.inj (hval.symm.trans h1)
  apply h3
  rw [← hc]
  decide

/-- C3: if a cache-miss resolution successfully fetches the remote collection,
the key is absent in it, and the environment has the key set to a truthy
value, then the call returns the environment value while caching `null` at the
full TTL; every later call while that entry is live returns `null` from the
cache with zero network calls, so two calls in the same TTL window return
different values. -/
theorem C3_absent_key_env_once_then_null (cfg : Config) (net : Network) (cache : Cache)
    (now nowSet t2 : Nat) (p K : String) (data : JSON) (log : List Request)
    (hmiss : isMiss cache (cacheKey p K) now = true)
    (hf : fetchFromVault cfg.env net p = (Except.ok data, log))
    (hv : extractValue data K = none)
    (he : struthy (cfg.env K) = true) :
    (getSecret cfg net cache now nowSet p K).value = cfg.env K ∧
    cacheGet (getSecret cfg net cache now nowSet p K).cache (cacheKey p K) =
      some { value := none, expiresAt := nowSet + cfg.cacheTtlMs } ∧
    (t2 < nowSet + cfg.cacheTtlMs →
      getSecret cfg net (getSecret cfg net cache now nowSet p K).cache t2 t2 p K =
        { value := none, cache := (getSecret cfg net cache now nowSet p K).cache,
          requests := [] }) ∧
    (getSecret cfg net cache now nowSet p K).value ≠ none := by
  rw [getSecret_miss cfg net cache now nowSet p K hmiss]
  rw [getSecretMiss_ok_none cfg net cache nowSet p K (cacheKey p K) data log hf hv]
  rw [he]
  refine ⟨rfl, cacheGet_cacheSet_self cache (cacheKey p K) _, ?_, ?_⟩
  · intro ht
    exact getSecret_hit cfg net _ t2 t2 p K _
      (cacheGet_cacheSet_self cache (cacheKey p K) _) ht
  · intro hn
    have hval : cfg.env K = none := hn
    rw [hval] at he
    simp [struthy] at he

/-- C3 witness: the theorem applied at the concrete key-absent scenario. -/
theorem C3_witness :
    (getSecret cfgStaticToken netKeyAbsent [] 0 0 "p" "K").value = cfgStaticToken.env "K" ∧
    cacheGet (getSecret cfgStaticToken netKeyAbsent [] 0 0 "p" "K").cache (cacheKey "p" "K") =
      some { value := none, expiresAt := 0 + cfgStaticToken.cacheTtlMs } ∧
    getSecret cfgStaticToken netKeyAbsent
        (getSecret cfgStaticToken netKeyAbsent [] 0 0 "p" "K").cache 5 5 "p" "K" =
      { value := none,
        cache := (getSecret cfgStaticToken netKeyAbsent [] 0 0 "p" "K").cache,
        requests := [] } := by
  obtain ⟨h1, h2, h3, h4⟩ :=
    C3_absent_key_env_once_then_null cfgStaticToken netKeyAbsent [] 0 0 5 "p" "K"
      (JSON.obj [("other", JSON.str "x")]) [Request.read "http://v/v1/p" "t"]
      (by decide) rfl (by decide) rfl
  exact ⟨h1, h2, h3 (by decide)⟩

/-! ### C4 -/

/-- C4: a cache entry is served exactly while its `expiresAt` is strictly in
the future: when `now < expiresAt` the call returns the entry with zero
network requests and an unchanged cache; when `expiresAt ≤ now` the expired
entry is never served and the call performs a fresh resolution through the
miss path. -/
theorem C4_never_served_past_expiry (cfg : Config) (net : Network) (cache : Cache)
    (now nowSet : Nat) (p K : String) (c : Cached)
    (hc : cacheGet cache (cacheKey p K) = some c) :
    (now < c.expiresAt →
      getSecret cfg net cache now nowSet p K =
        { value := c.value, cache := cache, requests := [] }) ∧
    (c.expiresAt ≤ now →
      getSecret cfg net cache now nowSet p K =
        getSecretMiss cfg net cache nowSet p K (cacheKey p K)) := by
  constructor
  · intro h
    exact getSecret_hit cfg net cache now nowSet p K c hc h
  · intro h
    apply getSecret_miss
    unfold isMiss
    rw [hc]
    simp [h]

/-- A one-entry cache whose entry for "p#K" expires at time 10. -/
def cacheOne : Cache := [("p#K", { value := some "v", expiresAt := 10 })]

/-- C4 witness: the theorem applied at time 12, past the entry expiry 10: the
call equals a fresh miss resolution. -/
theorem C4_witness :
    getSecret cfgStaticToken netKv1 cacheOne 12 12 "p" "K" =
      getSecretMiss cfgStaticToken netKv1 cacheOne 12 "p" "K" (cacheKey "p" "K") :=
  (C4_never_served_past_expiry cfgStaticToken netKv1 cacheOne 12 12 "p" "K"
    { value := some "v", expiresAt := 10 } rfl).2 (by decide)

/-! ### The static-token fetch path -/

/-- With the store address configured and a non-empty static token in the
environment, `fetchFromVault` goes straight to the authenticated read with
that token and performs no login call. -/
theorem fetchFromVault_static_token (env : EnvMap) (net : Network) (p tok : String)
    (haddr : struthy (env "VAULT_ADDR") = true)
    (htok : env "VAULT_TOKEN" = some tok) (hne : tok ≠ "") :
    fetchFromVault env net p =
      readSecret net ((env "VAULT_ADDR").getD "") p (some (JSON.str tok)) [] := by
  have ht : truthy (some (JSON.str tok)) = true := by
    simp [truthy, hne]
  unfold fetchFromVault
  rw [haddr]
  simp [htok, ht]

/-- The request trace of `readSecret` is the incoming log followed by exactly
one read request carrying the given token. -/
theorem readSecret_requests (net : Network) (addr p : String) (token : Option JSON)
    (log : List Request) :
    (readSecret net addr p token log).2 =
      log ++ [Request.read (readUrl addr p) (jsToString (token.getD JSON.null))] := by
  unfold readSecret
  by_cases h : (net (Request.read (readUrl addr p) (jsToString (token.getD JSON.null)))).ok = true
  · simp [h]
  · simp only [Bool.not_eq_true] at h
    simp [h]

/-- When the read response is successful, `readSecret` returns the normalized
body. -/
theorem readSecret_ok (net : Network) (addr p : String) (token : Option JSON)
    (log : List Request)
    (hok : (net (Request.read (readUrl addr p) (jsToString (token.getD JSON.null)))).ok = true) :
    readSecret net addr p token log =
      (Except.ok (normalizeEnvelope
          (net (Request.read (readUrl addr p) (jsToString (token.getD JSON.null)))).body),
        log ++ [Request.read (readUrl addr p) (jsToString (token.getD JSON.null))]) := by
  unfold readSecret
  simp [hok]

/-! ### C5 -/

/-- Normalizing a doubly-nested (KV v2) envelope yields the inner field map. -/
theorem normalizeEnvelope_kv2 (fields : List (String × JSON)) :
    normalizeEnvelope (JSON.obj [("data", JSON.obj [("data", JSON.obj fields)])]) =
      JSON.obj fields := by
  simp [normalizeEnvelope, truthy, jget]

/-- Normalizing a singly-nested (KV v1) envelope whose single field is not
named "data" yields the field map. -/
theorem normalizeEnvelope_kv1 (K : String) (V : JSON) (hK : (K == "data") = false) :
    normalizeEnvelope (JSON.obj [("data", JSON.obj [(K, V)])]) = JSON.obj [(K, V)] := by
  simp [normalizeEnvelope, truthy, jget, hK]

/-- Extracting a key from a one-field map holding that key. -/
theorem extractValue_single (K V : String) :
    extractValue (JSON.obj [(K, JSON.str V)]) K = some V := by
  simp [extractValue, jget, truthy, jsToString]

/-- Network answering the secret read with the singly-nested envelope
`\x7bdata:\x7bdata:"V"\x7d\x7d`, that is, K="data", V="V" in the singly-nested shape. -/
def netSinglyDataKey : Network := fun r =>
  match r with
  | Request.login _ _ _ => { ok := false, status := 500, body := JSON.obj [], text := "" }
  | Request.read _ _ =>
    { ok := true, status := 200,
      body := JSON.obj [("data", JSON.obj [("data", JSON.str "V")])], text := "" }

/-- C5 counterexample: for the key name "data", the singly-nested response
`\x7bdata:\x7bdata:"V"\x7d\x7d` is misdetected as a doubly-nested envelope, so
`resolve(path, "data")` returns null instead of "V": the normalization is not
correct for every response body of the singly-nested shape. -/
theorem C5_counterexample :
    (getSecret cfgStaticToken netSinglyDataKey [] 0 0 "p" "data").value = none ∧
    (getSecret cfgStaticToken netSinglyDataKey [] 0 0 "p" "data").value ≠ some "V" :=
  ⟨by decide, by decide⟩

/-- C5 (amended): for every key name K other than "data", the resolver
normalizes both envelope shapes before extracting the key: a doubly-nested
response `\x7bdata:\x7bdata:\x7bK:"V"\x7d\x7d\x7d` and a singly-nested response
`\x7bdata:\x7bK:"V"\x7d\x7d` both make `resolve(path, K)` return "V".  (When K is
itself "data" and V is non-empty, the singly-nested shape is misdetected as
doubly-nested and the value is not extracted, see the counterexample.) -/
theorem C5_both_envelopes_normalized (cfg : Config) (net1 net2 : Network)
    (cache1 cache2 : Cache) (now1 ns1 now2 ns2 : Nat) (p K V tok : String)
    (haddr : struthy (cfg.env "VAULT_ADDR") = true)
    (htok : cfg.env "VAULT_TOKEN" = some tok) (hne : tok ≠ "")
    (hK : K ≠ "data")
    (hm1 : isMiss cache1 (cacheKey p K) now1 = true)
    (hm2 : isMiss cache2 (cacheKey p K) now2 = true)
    (hresp1 : net1 (Request.read (readUrl ((cfg.env "VAULT_ADDR").getD "") p) tok) =
      { ok := true, status := 200, text := "",
        body := JSON.obj [("data", JSON.obj [("data", JSON.obj [(K, JSON.str V)])])] })
    (hresp2 : net2 (Request.read (readUrl ((cfg.env "VAULT_ADDR").getD "") p) tok) =
      { ok := true, status := 200, text := "",
        body := JSON.obj [("data", JSON.obj [(K, JSON.str V)])] }) :
    (getSecret cfg net1 cache1 now1 ns1 p K).value = some V ∧
    (getSecret cfg net2 cache2 now2 ns2 p K).value = some V := by
  have hKb : (K == "data") = false := by simpa using hK
  have htokstr : jsToString ((some (JSON.str tok)).getD JSON.null) = tok := rfl
  constructor
  · rw [getSecret_miss cfg net1 cache1 now1 ns1 p K hm1]
    have hok : (net1 (Request.read (readUrl ((cfg.env "VAULT_ADDR").getD "") p)
        (jsToString ((some (JSON.str tok)).getD JSON.null)))).ok = true := by
      rw [htokstr, hresp1]
    have hread := readSecret_ok net1 ((cfg.env "VAULT_ADDR").getD "") p
      (some (JSON.str tok)) [] hok
    rw [htokstr, hresp1] at hread
    simp only [normalizeEnvelope_kv2] at hread
    have hf := (fetchFromVault_static_token cfg.env net1 p tok haddr htok hne).trans hread
    rw [getSecretMiss_ok_some cfg net1 cache1 ns1 p K (cacheKey p K)
      (JSON.obj [(K, JSON.str V)])
      ([] ++ [Request.read (readUrl ((cfg.env "VAULT_ADDR").getD "") p) tok]) V hf
      (extractValue_single K V)]
  · rw [getSecret_miss cfg net2 cache2 now2 ns2 p K hm2]
    have hok : (net2 (Request.read (readUrl ((cfg.env "VAULT_ADDR").getD "") p)
        (jsToString ((some (JSON.str tok)).getD JSON.null)))).ok = true := by
      rw [htokstr, hresp2]
    have hread := readSecret_ok net2 ((cfg.env "VAULT_ADDR").getD "") p
      (some (JSON.str tok)) [] hok
    rw [htokstr, hresp2] at hread
    simp only [normalizeEnvelope_kv1 K (JSON.str V) hKb] at hread
    have hf := (fetchFromVault_static_token cfg.env net2 p tok haddr htok hne).trans hread
    rw [getSecretMiss_ok_some cfg net2 cache2 ns2 p K (cacheKey p K)
      (JSON.obj [(K, JSON.str V)])
      ([] ++ [Request.read (readUrl ((cfg.env "VAULT_ADDR").getD "") p) tok]) V hf
      (extractValue_single K V)]

/-- Network answering the secret read with a doubly-nested (KV v2) envelope
holding KEY="V". -/
def netKv2 : Network := fun r =>
  match r with
  | Request.login _ _ _ => { ok := false, status := 500, body := JSON.obj [], text := "" }
  | Request.read _ _ =>
    { ok := true, status := 200,
      body := JSON.obj [("data", JSON.obj [("data", JSON.obj [("KEY", JSON.str "V")])])],
      text := "" }

/-- C5 witness: the amended theorem applied at the concrete KV v2 and KV v1
networks. -/
theorem C5_witness :
    (getSecret cfgStaticToken netKv2 [] 0 0 "p" "KEY").value = some "V" ∧
    (getSecret cfgStaticToken netKv1 [] 3 3 "p" "KEY").value = some "V" :=
  C5_both_envelopes_normalized cfgStaticToken netKv2 netKv1 [] [] 0 0 3 3 "p" "KEY" "V" "t"
    rfl rfl (by decide) (by decide) (by decide) (by decide) rfl rfl

/-! ### C6 -/

/-- C6: with no store address configured, a cache-miss `resolve` performs no
network requests, does not throw, and returns the environment value for the
key (the fetch rejects before any I/O and the resolver falls back to the
environment). -/
theorem C6_no_addr_env_fallback (cfg : Config) (net : Network) (cache : Cache)
    (now nowSet : Nat) (p K V : String)
    (haddr : struthy (cfg.env "VAULT_ADDR") = false)
    (henv : cfg.env K = some V)
    (hmiss : isMiss cache (cacheKey p K) now = true) :
    (getSecret cfg net cache now nowSet p K).value = some V ∧
    (getSecret cfg net cache now nowSet p K).requests = [] := by
  have hf : fetchFromVault cfg.env net p = (Except.error "VAULT_ADDR not configured", []) := by
    unfold fetchFromVault
    rw [haddr]
    simp
  rw [getSecret_miss cfg net cache now nowSet p K hmiss]
  rw [getSecretMiss_error cfg net cache nowSet p K (cacheKey p K)
    "VAULT_ADDR not configured" [] hf]
  exact ⟨henv, rfl⟩

/-- Environment holding only the fallback value K="envV" and no store
configuration at all. -/
def envNoStore : EnvMap := fun k => if k == "K" then some "envV" else none

/-- Configuration with no store address, full TTL 300000 ms. -/
def cfgNoStore : Config := { env := envNoStore, cacheTtlMs := 300000 }

/-- C6 witness: the theorem applied at the concrete unconfigured-store
scenario. -/
theorem C6_witness :
    (getSecret cfgNoStore netKv1 [] 0 0 "any/path" "K").value = some "envV" ∧
    (getSecret cfgNoStore netKv1 [] 0 0 "any/path" "K").requests = [] :=
  C6_no_addr_env_fallback cfgNoStore netKv1 [] 0 0 "any/path" "K" "envV" rfl rfl (by decide)

/-! ### C7 -/

/-- C7: on a cache miss with both a static token and a role-id/secret-id pair
configured, the request trace of the resolution is exactly one authenticated
read carrying the static token: the static token is the credential used and no
AppRole login request is issued. -/
theorem C7_static_token_preferred (cfg : Config) (net : Network) (cache : Cache)
    (now nowSet : Nat) (p K tok : String)
    (haddr : struthy (cfg.env "VAULT_ADDR") = true)
    (htok : cfg.env "VAULT_TOKEN" = some tok) (hne : tok ≠ "")
    (hrole : struthy (cfg.env "VAULT_ROLE_ID") = true)
    (hsec : struthy (cfg.env "VAULT_SECRET_ID") = true)
    (hmiss : isMiss cache (cacheKey p K) now = true) :
    (getSecret cfg net cache now nowSet p K).requests =
      [Request.read (readUrl ((cfg.env "VAULT_ADDR").getD "") p) tok] ∧
    ∀ u rid sid, Request.login u rid sid ∉ (getSecret cfg net cache now nowSet p K).requests := by
  have hreq : (getSecret cfg net cache now nowSet p K).requests =
      [Request.read (readUrl ((cfg.env "VAULT_ADDR").getD "") p) tok] := by
    rw [getSecret_miss cfg net cache now nowSet p K hmiss]
    rw [getSecretMiss_requests cfg net cache nowSet p K (cacheKey p K)]
    rw [fetchFromVault_static_token cfg.env net p tok haddr htok hne]
    rw [readSecret_requests net ((cfg.env "VAULT_ADDR").getD "") p (some (JSON.str tok)) []]
    rfl
  refine ⟨hreq, ?_⟩
  intro u rid sid hmem
  rw [hreq] at hmem
  simp at hmem

/-- Environment with the store address, a static token, and an AppRole pair
all configured. -/
def envAllCreds : EnvMap := fun k =>
  if k == "VAULT_ADDR" then some "http://v/"
  else if k == "VAULT_TOKEN" then some "tok"
  else if k == "VAULT_ROLE_ID" then some "r"
  else if k == "VAULT_SECRET_ID" then some "s"
  else none

/-- Configuration with every credential form present, full TTL 300000 ms. -/
def cfgAllCreds : Config := { env := envAllCreds, cacheTtlMs := 300000 }

/-- C7 witness: the theorem applied with both credential forms configured; the
only request is the token-bearing read. -/
theorem C7_witness :
    (getSecret cfgAllCreds netKv1 [] 0 0 "/p" "KEY").requests =
      [Request.read (readUrl ((cfgAllCreds.env "VAULT_ADDR").getD "") "/p") "tok"] :=
  (C7_static_token_preferred cfgAllCreds netKv1 [] 0 0 "/p" "KEY" "tok"
    rfl rfl (by decide) rfl rfl (by decide)).1

/-! ### C8 -/

/-- C8: when a miss soft-fails (the internal fetch threw), the environment
fallback is cached with expiry `nowSet + min cacheTtlMs 30000`; any call at or
after that expiry is a fresh miss resolution again — the remote store is
re-attempted rather than the cached fallback value being reused. -/
theorem C8_fallback_cached_short (cfg : Config) (net : Network) (cache : Cache)
    (now nowSet t2 ns2 : Nat) (p K e : String) (log : List Request)
    (hmiss : isMiss cache (cacheKey p K) now = true)
    (hfail : fetchFromVault cfg.env net p = (Except.error e, log)) :
    cacheGet (getSecret cfg net cache now nowSet p K).cache (cacheKey p K) =
      some { value := cfg.env K, expiresAt := nowSet + min cfg.cacheTtlMs 30000 } ∧
    (nowSet + min cfg.cacheTtlMs 30000 ≤ t2 →
      getSecret cfg net (getSecret cfg net cache now nowSet p K).cache t2 ns2 p K =
        getSecretMiss cfg net (getSecret cfg net cache now nowSet p K).cache ns2 p K
          (cacheKey p K)) := by
  rw [getSecret_miss cfg net cache now nowSet p K hmiss,
    getSecretMiss_error cfg net cache nowSet p K (cacheKey p K) e log hfail]
  refine ⟨cacheGet_cacheSet_self cache (cacheKey p K) _, ?_⟩
  intro ht
  apply getSecret_miss
  unfold isMiss
  rw [cacheGet_cacheSet_self cache (cacheKey p K) _]
  simp [ht]

/-- C8 witness: the theorem applied at the login-failure scenario, with the
second call issued exactly when the short fallback TTL expires. -/
theorem C8_witness :
    cacheGet (getSecret cfgAppRole netLogin400 [] 0 0 "secret/p" "K").cache
        (cacheKey "secret/p" "K") =
      some { value := cfgAppRole.env "K",
             expiresAt := 0 + min cfgAppRole.cacheTtlMs 30000 } ∧
    getSecret cfgAppRole netLogin400
        (getSecret cfgAppRole netLogin400 [] 0 0 "secret/p" "K").cache 30000 30000
        "secret/p" "K" =
      getSecretMiss cfgAppRole netLogin400
        (getSecret cfgAppRole netLogin400 [] 0 0 "secret/p" "K").cache 30000
        "secret/p" "K" (cacheKey "secret/p" "K") := by
  obtain ⟨h1, h2⟩ := C8_fallback_cached_short cfgAppRole netLogin400 [] 0 0 30000 30000
    "secret/p" "K" "Vault AppRole login failed: 400"
    [Request.login "http://v/v1/auth/approle/login" "r" "s"] (by decide) rfl
  exact ⟨h1, h2 (by decide)⟩

/-! ### C9 -/

/-- C9: `clearVaultCache` resets the cache to empty: a (path, keyName) pair
that was a live cache hit (zero requests) beforehand becomes a fresh miss on
the cleared cache, running the miss path and issuing exactly the requests of a
fresh remote fetch. -/
theorem C9_clear_cache_resets (cfg : Config) (net : Network) (cache : Cache)
    (now nowSet now2 ns2 : Nat) (p K : String) (c : Cached)
    (hlive : cacheGet cache (cacheKey p K) = some c) (hnow : now < c.expiresAt) :
    getSecret cfg net cache now nowSet p K =
      { value := c.value, cache := cache, requests := [] } ∧
    getSecret cfg net clearVaultCache now2 ns2 p K =
      getSecretMiss cfg net clearVaultCache ns2 p K (cacheKey p K) ∧
    (getSecret cfg net clearVaultCache now2 ns2 p K).requests =
      (fetchFromVault cfg.env net p).2 := by
  refine ⟨getSecret_hit cfg net cache now nowSet p K c hlive hnow, ?_, ?_⟩
  · exact getSecret_miss cfg net clearVaultCache now2 ns2 p K rfl
  · rw [getSecret_miss cfg net clearVaultCache now2 ns2 p K rfl]
    exact getSecretMiss_requests cfg net clearVaultCache ns2 p K (cacheKey p K)

/-- C9 witness: the theorem applied at a live one-entry cache and the cleared
cache. -/
theorem C9_witness :
    getSecret cfgStaticToken netKv1 cacheOne 3 3 "p" "K" =
      { value := some "v", cache := cacheOne, requests := [] } ∧
    getSecret cfgStaticToken netKv1 clearVaultCache 3 3 "p" "K" =
      getSecretMiss cfgStaticToken netKv1 clearVaultCache 3 "p" "K" (cacheKey "p" "K") ∧
    (getSecret cfgStaticToken netKv1 clearVaultCache 3 3 "p" "K").requests =
      (fetchFromVault cfgStaticToken.env netKv1 "p").2 :=
  C9_clear_cache_resets cfgStaticToken netKv1 cacheOne 3 3 3 3 "p" "K"
    { value := some "v", expiresAt := 10 } rfl (by decide)

/-! ### C10 -/

/-- Network whose read returns a collection holding the key "b#c". -/
def netCollide : Network := fun r =>
  match r with
  | Request.login _ _ _ => { ok := false, status := 500, body := JSON.obj [], text := "" }
  | Request.read _ _ =>
    { ok := true, status := 200,
      body := JSON.obj [("data", JSON.obj [("b#c", JSON.str "w1")])], text := "" }

/-- C10: the cache key map is not injective: ("a#b","c") and ("a","b#c") are
distinct pairs with the same cache key "a#b#c", and the value cached by
resolving ("a","b#c") is then served as a live cache hit for ("a#b","c") with
zero network requests — the two pairs are not independent cache entries. -/
theorem C10_cache_key_collision :
    cacheKey "a#b" "c" = cacheKey "a" "b#c" ∧
    (("a#b", "c") : String × String) ≠ ("a", "b#c") ∧
    (getSecret cfgStaticToken netCollide [] 0 0 "a" "b#c").value = some "w1" ∧
    (getSecret cfgStaticToken netCollide
        (getSecret cfgStaticToken netCollide [] 0 0 "a" "b#c").cache 1 1 "a#b" "c").value =
      some "w1" ∧
    (getSecret cfgStaticToken netCollide
        (getSecret cfgStaticToken netCollide [] 0 0 "a" "b#c").cache 1 1 "a#b" "c").requests =
      [] :=
  ⟨by decide, by decide, by decide, by decide, by decide⟩
